/-
  Verification development for the sleep-stats tool (main.go).

  The repository ships two revisions of main.go; the second (current) one is
  the authority: parseCSV with a header map, date-range filters and the
  timestamp layout "2006-01-02 15:04:05 +0000"; groupByDate without the
  before-noon shift; calculateNightlyStatistics; createPlot; main.
  Functions of the earlier revision that differ are embedded with a V1 suffix.

  Modelling conventions:
  * time.Time values parsed with a fixed numeric-offset layout are embedded as
    wall-clock civil fields plus an offset in seconds (GoTime).  Sub, After,
    Before, Equal and Unix go through toUnix (seconds since the epoch).
  * time.Duration is int64 nanoseconds; Sub saturates at the int64 bounds,
    which goSub reproduces, and the += accumulation in
    calculateNightlyStatistics wraps on int64 overflow, which updDur
    reproduces through wrap64 (two's-complement wrap to int64).
  * Go maps are embedded as insertion-ordered association lists; Go's map
    iteration order is unspecified (randomized), and insertion order is one of
    the admissible orders.  Lookup of an absent key yields the zero value.
  * The CSV layer is encoding/csv restricted to the inputs at hand: records
    split on newlines, a trailing carriage return stripped, blank lines
    skipped, fields split on commas, and the field count of every data row
    checked against the header.  Quoting is not exercised by any claim and is
    not modelled.  File contents are ASCII, so bytes and Chars coincide.
-/
import Mathlib

set_option maxRecDepth 4000000

namespace SleepStats

/-! ## Calendar arithmetic (proleptic Gregorian, as in package time) -/

/-- Leap-year test, as in Go's isLeap. -/
def isLeap (y : Nat) : Bool :=
  decide (y % 4 = 0) && (decide (y % 100 ≠ 0) || decide (y % 400 = 0))

/-- Days in a month, as in Go's daysIn. -/
def daysIn (m y : Nat) : Nat :=
  if m = 2 then (if isLeap y then 29 else 28)
  else if m = 4 ∨ m = 6 ∨ m = 9 ∨ m = 11 then 30
  else 31

/-- Days in years 0..y-1 of the proleptic Gregorian calendar (year 0 is leap). -/
def daysBeforeYear (y : Nat) : Nat :=
  365 * y + (y + 3) / 4 + (y + 399) / 400 - (y + 99) / 100

/-- Days in the months before month m (1-12) of a year with leap flag l. -/
def daysBeforeMonth (m : Nat) (l : Bool) : Nat :=
  let ℓ := if l then 1 else 0
  match m with
  | 1 => 0
  | 2 => 31
  | 3 => 59 + ℓ
  | 4 => 90 + ℓ
  | 5 => 120 + ℓ
  | 6 => 151 + ℓ
  | 7 => 181 + ℓ
  | 8 => 212 + ℓ
  | 9 => 243 + ℓ
  | 10 => 273 + ℓ
  | 11 => 304 + ℓ
  | _ => 334 + ℓ

/-- Day count of a civil date, measured from 0000-01-01. -/
def dateToDays (y m d : Nat) : Nat :=
  daysBeforeYear y + daysBeforeMonth m (isLeap y) + (d - 1)

/-- A time.Time carrying a fixed numeric offset: wall-clock civil fields plus
the offset (seconds east of UTC) of its location. -/
structure GoTime where
  year : Nat
  month : Nat
  day : Nat
  hour : Nat
  minute : Nat
  sec : Nat
  offset : Int
deriving DecidableEq

/-- time.Time.Unix: seconds since 1970-01-01T00:00:00Z.  719528 is the day
count of 1970-01-01 from 0000-01-01. -/
def toUnix (t : GoTime) : Int :=
  ((dateToDays t.year t.month t.day : Int) - 719528) * 86400
    + t.hour * 3600 + t.minute * 60 + t.sec - t.offset

/-- time.Time.After. -/
def goAfter (t u : GoTime) : Bool := decide (toUnix u < toUnix t)

/-- time.Time.Before. -/
def goBefore (t u : GoTime) : Bool := decide (toUnix t < toUnix u)

/-- time.Time.Equal (instant equality). -/
def goEqual (t u : GoTime) : Bool := decide (toUnix t = toUnix u)

/-- Largest time.Duration (int64 nanoseconds). -/
def maxDuration : Int := 9223372036854775807

/-- Smallest time.Duration. -/
def minDuration : Int := -9223372036854775808

/-- time.Time.Sub: the difference t - u in nanoseconds, saturating at the
int64 bounds exactly as Go's Sub does. -/
def goSub (t u : GoTime) : Int :=
  if maxDuration < (toUnix t - toUnix u) * 1000000000 then maxDuration
  else if (toUnix t - toUnix u) * 1000000000 < minDuration then minDuration
  else (toUnix t - toUnix u) * 1000000000

/-- time.Time.AddDate(0, 0, -1) for a valid civil date: the previous calendar
day, keeping the time of day and the offset.  (Go normalizes through Date;
on valid dates that is exactly the previous day.) -/
def addDateMinusOneDay (t : GoTime) : GoTime :=
  if 1 < t.day then { t with day := t.day - 1 }
  else if 1 < t.month then { t with month := t.month - 1, day := daysIn (t.month - 1) t.year }
  else { t with year := t.year - 1, month := 12, day := 31 }

/-! ## Digits, zero-padded formatting (time.Time.Format "2006-01-02") -/

/-- The decimal digit character for k (0-9). -/
def dc (k : Nat) : Char := Char.ofNat (48 + k)

/-- Two zero-padded decimal digits. -/
def pad2 (n : Nat) : List Char := [dc (n / 10 % 10), dc (n % 10)]

/-- Four zero-padded decimal digits (Format's "2006"; source years are four
digits, so the larger-year case never arises on parser-produced times). -/
def pad4 (n : Nat) : List Char :=
  [dc (n / 1000 % 10), dc (n / 100 % 10), dc (n / 10 % 10), dc (n % 10)]

/-- time.Time.Format("2006-01-02"): the wall-clock calendar date. -/
def format10 (t : GoTime) : String :=
  String.mk (pad4 t.year ++ '-' :: pad2 t.month ++ '-' :: pad2 t.day)

/-! ## time.Parse for the layouts appearing in the source

Go's layout scanner has no case for a plus sign, so in the current revision's
layout "2006-01-02 15:04:05 +0000" the trailing " +0000" is a literal chunk:
only an input ending in exactly " +0000" parses, with offset zero.  The
earlier revision's layout "2006-01-02 15:04:05 -0700" ends in the numeric
time-zone chunk, which accepts either sign and four digits.  The hour chunk
"15" is parsed by getnum in non-fixed mode (one digit, or two when the next
character is also a digit); the zero-padded chunks are fixed two-digit, the
year fixed four-digit.  After the chunks, Parse rejects out-of-range month,
day (against daysIn), hour, minute and second, and any unconsumed input. -/

/-- Value of a decimal digit character. -/
def digitVal (c : Char) : Option Nat :=
  if c.isDigit then some (c.toNat - 48) else none

/-- Fixed two-digit number (getnum with fixed = true). -/
def num2 : List Char → Option (Nat × List Char)
  | c1 :: c2 :: rest =>
    match digitVal c1, digitVal c2 with
    | some a, some b => some (a * 10 + b, rest)
    | _, _ => none
  | _ => none

/-- One- or two-digit number (getnum with fixed = false, used for "15"). -/
def num12 : List Char → Option (Nat × List Char)
  | c1 :: c2 :: rest =>
    match digitVal c1 with
    | none => none
    | some a =>
      match digitVal c2 with
      | some b => some (a * 10 + b, rest)
      | none => some (a, c2 :: rest)
  | [c1] => (digitVal c1).map (fun a => (a, ([] : List Char)))
  | [] => none

/-- Fixed four-digit number (the "2006" year chunk). -/
def num4 : List Char → Option (Nat × List Char)
  | c1 :: c2 :: c3 :: c4 :: rest =>
    match digitVal c1, digitVal c2, digitVal c3, digitVal c4 with
    | some a, some b, some c, some d => some (((a * 10 + b) * 10 + c) * 10 + d, rest)
    | _, _, _, _ => none
  | _ => none

/-- A single literal layout character. -/
def lit (c : Char) : List Char → Option (List Char)
  | c' :: rest => if c' = c then some rest else none
  | [] => none

/-- A literal layout chunk. -/
def lits : List Char → List Char → Option (List Char)
  | [], cs => some cs
  | l :: ls, c :: cs => if c = l then lits ls cs else none
  | _ :: _, [] => none

/-- The common "2006-01-02 15:04:05" prefix of both layouts. -/
def parseYMDHMS (cs : List Char) : Option ((Nat × Nat × Nat × Nat × Nat × Nat) × List Char) :=
  (num4 cs).bind fun py =>
  (lit '-' py.2).bind fun r1 =>
  (num2 r1).bind fun pmo =>
  (lit '-' pmo.2).bind fun r2 =>
  (num2 r2).bind fun pd =>
  (lit ' ' pd.2).bind fun r3 =>
  (num12 r3).bind fun ph =>
  (lit ':' ph.2).bind fun r4 =>
  (num2 r4).bind fun pmi =>
  (lit ':' pmi.2).bind fun r5 =>
  (num2 r5).bind fun ps =>
  some ((py.1, pmo.1, pd.1, ph.1, pmi.1, ps.1), ps.2)

/-- Parse's range validation: month, day (against daysIn), hour, minute,
second.  The four-digit year chunk already bounds the year. -/
def validDate (y mo d h mi s : Nat) : Bool :=
  decide (1 ≤ mo) && decide (mo ≤ 12) && decide (1 ≤ d) && decide (d ≤ daysIn mo y)
    && decide (h ≤ 23) && decide (mi ≤ 59) && decide (s ≤ 59)

/-- The literal tail of the current layout. -/
def zeroOffTail : List Char := [' ', '+', '0', '0', '0', '0']

/-- time.Parse("2006-01-02 15:04:05 +0000", s) of the current revision:
the offset chunk is literal text, so only " +0000" is accepted and the
resulting time is in UTC (offset 0). -/
def parseTimestampV2 (str : String) : Option GoTime :=
  match parseYMDHMS str.data with
  | none => none
  | some ((y, mo, d, h, mi, s), rest) =>
    match lits zeroOffTail rest with
    | none => none
    | some [] => if validDate y mo d h mi s then some ⟨y, mo, d, h, mi, s, 0⟩ else none
    | some (_ :: _) => none

/-- time.Parse("2006-01-02 15:04:05 -0700", s) of the earlier revision:
a numeric time-zone chunk accepting either sign and four digits. -/
def parseTimestampV1 (str : String) : Option GoTime :=
  match parseYMDHMS str.data with
  | none => none
  | some ((y, mo, d, h, mi, s), rest) =>
    match rest with
    | ' ' :: sgn :: z1 :: z2 :: z3 :: z4 :: [] =>
      match digitVal z1, digitVal z2, digitVal z3, digitVal z4 with
      | some a, some b, some c, some dd =>
        if validDate y mo d h mi s then
          if sgn = '+' then some ⟨y, mo, d, h, mi, s, (((a * 10 + b) * 60 + (c * 10 + dd) : Nat) : Int) * 60⟩
          else if sgn = '-' then some ⟨y, mo, d, h, mi, s, -((((a * 10 + b) * 60 + (c * 10 + dd) : Nat) : Int) * 60)⟩
          else none
        else none
      | _, _, _, _ => none
    | _ => none

/-- time.Parse("2006-01-02", s), used for the CLI date filters and for
re-parsing night keys in createPlot. -/
def parseDate10 (str : String) : Option GoTime :=
  (num4 str.data).bind fun py =>
  (lit '-' py.2).bind fun r1 =>
  (num2 r1).bind fun pmo =>
  (lit '-' pmo.2).bind fun r2 =>
  (num2 r2).bind fun pd =>
  match pd.2 with
  | [] => if validDate py.1 pmo.1 pd.1 0 0 0 then some ⟨py.1, pmo.1, pd.1, 0, 0, 0, 0⟩ else none
  | _ :: _ => none

/-! ## The CSV layer (encoding/csv as exercised by this tool) -/

/-- Split on newline characters, keeping the final segment. -/
def splitLines (cs : List Char) : List (List Char) :=
  cs.foldr
    (fun c acc =>
      match acc with
      | [] => [[]]
      | l :: ls => if c = '\n' then [] :: l :: ls else (c :: l) :: ls)
    [[]]

/-- Strip one trailing carriage return (\r\n line endings). -/
def stripCR (l : List Char) : List Char :=
  if l.getLast? = some '\r' then l.dropLast else l

/-- Split one line into comma-separated fields. -/
def splitComma (l : List Char) : List String :=
  (l.foldr
    (fun c acc =>
      match acc with
      | [] => [[]]
      | f :: fs => if c = ',' then [] :: f :: fs else (c :: f) :: fs)
    [[]]).map String.mk

/-- The records of a CSV stream: lines, with blank lines skipped, each split
into fields. -/
def csvRecords (cs : List Char) : List (List String) :=
  ((splitLines cs).map stripCR).filterMap
    (fun l => if l = [] then none else some (splitComma l))

/-- Drop everything up to and including the first newline (ReadString after a
detected separator-declaration line); none when no newline exists, in which
case ReadString reports an error. -/
def dropThroughNewline : List Char → Option (List Char)
  | [] => none
  | c :: rest => if c = '\n' then some rest else dropThroughNewline rest

/-- The distinguishable failure exits of parseCSV. -/
inductive CSVError where
  /-- bufio Peek(4) hit end of input before four bytes. -/
  | peekShort
  /-- a sep= line without a terminating newline. -/
  | sepNoNewline
  /-- end of input where the header record was expected. -/
  | noHeader
  /-- a data row whose field count differs from the header's. -/
  | fieldCount
  /-- time.Parse failed on the given field of a retained row. -/
  | badTimestamp (s : String)
deriving DecidableEq

/-! ## parseHeader and parseCSV (current revision) -/

/-- Go map assignment m[k] = i on a name-to-index association list. -/
def updIdx : List (String × Nat) → String → Nat → List (String × Nat)
  | [], k, i => [(k, i)]
  | (k', x) :: rest, k, i =>
    if k' = k then (k, i) :: rest else (k', x) :: updIdx rest k i

/-- The loop of parseHeader: for i, name := range header. -/
def parseHeaderAux : Nat → List String → List (String × Nat) → List (String × Nat)
  | _, [], m => m
  | i, name :: rest, m => parseHeaderAux (i + 1) rest (updIdx m name i)

/-- parseHeader: map each header name to its column index. -/
def parseHeader (header : List String) : List (String × Nat) :=
  parseHeaderAux 0 header []

/-- Go map read headerMap[k] with the zero value 0 for an absent key. -/
def mapGetD : List (String × Nat) → String → Nat
  | [], _ => 0
  | (k', x) :: rest, k => if k' = k then x else mapGetD rest k

/-- The SleepData record of the current revision. -/
structure SleepData where
  StartDate : GoTime
  EndDate : GoTime
  Value : String
deriving DecidableEq

/-- The date-range condition of parseCSV:
(startFilter == nil or startDate.After or .Equal) and
(endFilter == nil or endDate.Before or .Equal). -/
def inDateRange (startFilter endFilter : Option GoTime) (s e : GoTime) : Bool :=
  (match startFilter with
   | none => true
   | some f => goAfter s f || goEqual s f)
  &&
  (match endFilter with
   | none => true
   | some f => goBefore e f || goEqual e f)

/-- strings.HasPrefix(s, pre), by character-list recursion. -/
def listPre : List Char → List Char → Bool
  | [], _ => true
  | _ :: _, [] => false
  | p :: ps, c :: cs => p = c && listPre ps cs

/-- strings.HasPrefix on Strings. -/
def goHasPre (s pre : String) : Bool := listPre pre.data s.data

/-- The record loop of parseCSV: field-count check (csv.Reader's
FieldsPerRecord, fixed by the header), device-class skip, the two timestamp
parses (each failure fatal), the date-range filter, and the append. -/
def processRows (expected : Nat) (hm : List (String × Nat)) (sf ef : Option GoTime) :
    List (List String) → Except CSVError (List SleepData)
  | [] => Except.ok []
  | r :: rest =>
    if r.length ≠ expected then Except.error CSVError.fieldCount
    else if goHasPre (r.getD (mapGetD hm ("productType")) ("")) ("Watch") then
      match parseTimestampV2 (r.getD (mapGetD hm ("startDate")) ("")) with
      | none => Except.error (CSVError.badTimestamp (r.getD (mapGetD hm ("startDate")) ("")))
      | some startDate =>
        match parseTimestampV2 (r.getD (mapGetD hm ("endDate")) ("")) with
        | none => Except.error (CSVError.badTimestamp (r.getD (mapGetD hm ("endDate")) ("")))
        | some endDate =>
          match processRows expected hm sf ef rest with
          | Except.error e => Except.error e
          | Except.ok tailOut =>
            if inDateRange sf ef startDate endDate then
              Except.ok (⟨startDate, endDate, r.getD (mapGetD hm ("value")) ("")⟩ :: tailOut)
            else Except.ok tailOut
    else processRows expected hm sf ef rest

/-- The part of parseCSV after the separator-line handling: read the header
record (EOF there is an error), build the header map, process the data rows. -/
def parseRows (cs : List Char) (sf ef : Option GoTime) : Except CSVError (List SleepData) :=
  match csvRecords cs with
  | [] => Except.error CSVError.noHeader
  | header :: rows => processRows header.length (parseHeader header) sf ef rows

/-- parseCSV of the current revision, over the file's contents: the Peek(4)
separator-line detection, then header and rows.  (os.Open and the deferred
Close are harness I/O and are not part of the contract modelled here.) -/
def parseCSV (content : String) (sf ef : Option GoTime) : Except CSVError (List SleepData) :=
  if content.data.length < 4 then Except.error CSVError.peekShort
  else if content.data.take 4 = ['s', 'e', 'p', '='] then
    match dropThroughNewline content.data with
    | none => Except.error CSVError.sepNoNewline
    | some rest => parseRows rest sf ef
  else parseRows content.data sf ef

/-! ## groupByDate (both revisions) and calculateNightlyStatistics -/

/-- groupedData[key] = append(groupedData[key], entry) on an
insertion-ordered association list. -/
def insertBucket : List (String × List SleepData) → String → SleepData →
    List (String × List SleepData)
  | [], k, e => [(k, [e])]
  | (k', b) :: rest, k, e =>
    if k' = k then (k', b ++ [e]) :: rest else (k', b) :: insertBucket rest k e

/-- The grouping loop, abstracted over the per-entry key. -/
def groupByKey (key : SleepData → String) (data : List SleepData) :
    List (String × List SleepData) :=
  data.foldl (fun g e => insertBucket g (key e) e) []

/-- The night key of the current revision: the start timestamp's calendar
date, as-is (the before-noon shift is commented out in the source). -/
def nightKey (e : SleepData) : String := format10 e.StartDate

/-- groupByDate of the current revision. -/
def groupByDate (data : List SleepData) : List (String × List SleepData) :=
  groupByKey nightKey data

/-- The earlier revision's boundary rule: a start before noon is shifted to
the previous day (AddDate(0, 0, -1)) before taking the date. -/
def v1DateKey (t : GoTime) : GoTime :=
  if t.hour < 12 then addDateMinusOneDay t else t

/-- The night key of the earlier revision. -/
def nightKeyV1 (e : SleepData) : String := format10 (v1DateKey e.StartDate)

/-- groupByDate of the earlier revision (the shift variant). -/
def groupByDateV1 (data : List SleepData) : List (String × List SleepData) :=
  groupByKey nightKeyV1 data

/-- Two's-complement wrap to int64.  Go's time.Duration is int64 and its
addition overflows by wrapping, which every accumulation below goes through. -/
def wrap64 (x : Int) : Int :=
  (x + 9223372036854775808) % 18446744073709551616 - 9223372036854775808

/-- stats[value] += duration on an insertion-ordered association list:
Go map write with the zero value for an absent key, the int64 addition
wrapping on overflow (on an absent key the stored value is the zero value
plus the duration, on which wrap64 is the identity since a Duration is
already in int64 range). -/
def updDur : List (String × Int) → String → Int → List (String × Int)
  | [], k, d => [(k, wrap64 d)]
  | (k', x) :: rest, k, d =>
    if k' = k then (k', wrap64 (x + d)) :: rest else (k', x) :: updDur rest k d

/-- The inner loop of calculateNightlyStatistics on one night's bucket:
duration := entry.EndDate.Sub(entry.StartDate); stats[entry.Value] += duration. -/
def statsOf (entries : List SleepData) : List (String × Int) :=
  entries.foldl (fun st e => updDur st e.Value (goSub e.EndDate e.StartDate)) []

/-- calculateNightlyStatistics: per night, the per-stage duration sums. -/
def calculateNightlyStatistics (g : List (String × List SleepData)) :
    List (String × List (String × Int)) :=
  g.map (fun p => (p.1, statsOf p.2))

/-- Go map read stats[k] with the zero duration for an absent key. -/
def lookupD : List (String × Int) → String → Int
  | [], _ => 0
  | (k', x) :: rest, k => if k' = k then x else lookupD rest k

/-- Go map read nightlyStats[k] with an empty stage map for an absent key. -/
def nightStatsFor : List (String × List (String × Int)) → String → List (String × Int)
  | [], _ => []
  | (k', st) :: rest, k => if k' = k then st else nightStatsFor rest k

/-- The sum of the stored per-stage totals of one night. -/
def sumVals (st : List (String × Int)) : Int := (st.map (fun p => p.2)).sum

/-! ## The reporter: main's summary loop and createPlot's series -/

/-- The stage labels printed by main and charted by createPlot, in order. -/
def stageOrder : List String :=
  [("inBed"), ("asleepCore"), ("asleepREM"), ("asleepDeep"), ("awake")]

/-- main's summary loop: per night (in map iteration order), the five printed
per-stage totals.  (Printf renders these Durations; the numbers are what is
reported.) -/
def summaryLines (ns : List (String × List (String × Int))) :
    List (String × List Int) :=
  ns.map (fun p => (p.1, stageOrder.map (fun st => lookupD p.2 st)))

/-- createPlot's x-value for a night key: the Unix seconds of the re-parsed
date; time.Parse's error is discarded and yields the zero Time, whose Unix
value is -62135596800. -/
def dateVal (s : String) : Int :=
  match parseDate10 s with
  | some t => toUnix t
  | none => -62135596800

/-- Insert into a list sorted ascending by dateVal. -/
def insertSorted (x : String) : List String → List String
  | [] => [x]
  | y :: ys => if dateVal x < dateVal y then x :: y :: ys else y :: insertSorted x ys

/-- sort.Slice(dates, dates[i].Before(dates[j])): ascending by parsed date. -/
def sortDates (l : List String) : List String :=
  l.foldr insertSorted []

/-- createPlot's date axis: the night keys in map iteration order, then
sorted. -/
def plotDates (ns : List (String × List (String × Int))) : List String :=
  sortDates (ns.map (fun p => p.1))

/-- createPlot's y-series for one stage: the per-night totals in map
iteration order (NOT re-sorted; Minutes() is a fixed positive rescaling of
these nanosecond values and is omitted). -/
def seriesOf (stage : String) (ns : List (String × List (String × Int))) : List Int :=
  ns.map (fun p => lookupD p.2 stage)

/-- createPlot's point list for one stage: the i-th sorted date paired with
the i-th element of the unsorted y-series, exactly as createLine does. -/
def plotPoints (stage : String) (ns : List (String × List (String × Int))) :
    List (String × Int) :=
  (plotDates ns).zip (seriesOf stage ns)

/-- Modelled from the spec: the per-night occurrence count of a designated
session-count stage.  No such count is computed anywhere in the source; this
definition follows the spec's words and exists only to be compared with the
program's outputs. -/
def sessionCountSpec (stage : String) (bucket : List SleepData) : Nat :=
  (bucket.filter (fun e => e.Value = stage)).length

/-! ## Supporting lemmas -/

theorem digitVal_dc_mod (n : Nat) : digitVal (dc (n % 10)) = some (n % 10) := by
  have h : n % 10 < 10 := Nat.mod_lt _ (by norm_num)
  generalize hk : n % 10 = k at *
  interval_cases k <;> decide

theorem num2_pad2 (n : Nat) (r : List Char) :
    num2 (pad2 n ++ r) = some (n / 10 % 10 * 10 + n % 10, r) := by
  simp [pad2, num2, digitVal_dc_mod]

theorem num12_pad2 (n : Nat) (c : Char) (r : List Char) :
    num12 (pad2 n ++ c :: r) = some (n / 10 % 10 * 10 + n % 10, c :: r) := by
  simp [pad2, num12, digitVal_dc_mod]

theorem num4_pad4 (n : Nat) (r : List Char) :
    num4 (pad4 n ++ r) =
      some (((n / 1000 % 10 * 10 + n / 100 % 10) * 10 + n / 10 % 10) * 10 + n % 10, r) := by
  simp [pad4, num4, digitVal_dc_mod]

theorem lit_cons (c : Char) (r : List Char) : lit c (c :: r) = some r := by
  simp [lit]

theorem lits_self (ls cs : List Char) : lits ls (ls ++ cs) = some cs := by
  induction ls with
  | nil => simp [lits]
  | cons c ls ih => simp [lits, ih]

def tsChars (y mo d h mi s : Nat) (tail : List Char) : List Char :=
  pad4 y ++ '-' :: pad2 mo ++ '-' :: pad2 d ++ ' ' :: pad2 h ++ ':' :: pad2 mi ++ ':' :: pad2 s ++ tail

theorem parseYMDHMS_tsChars (y mo d h mi s : Nat) (tail : List Char)
    (hy : y ≤ 9999) (hmo : mo ≤ 99) (hd : d ≤ 99) (hh : h ≤ 99) (hmi : mi ≤ 99) (hs : s ≤ 99) :
    parseYMDHMS (tsChars y mo d h mi s tail) = some ((y, mo, d, h, mi, s), tail) := by
  simp [tsChars, parseYMDHMS, num4_pad4, num2_pad2, num12_pad2, lit_cons]
  refine ⟨by omega, by omega, by omega, by omega, by omega, by omega⟩

def tsString (y mo d h mi s : Nat) : String :=
  String.mk (tsChars y mo d h mi s zeroOffTail)

theorem daysIn_le (m y : Nat) : daysIn m y ≤ 31 := by
  unfold daysIn
  split_ifs <;> omega

theorem parseTimestampV2_tsString (y mo d h mi s : Nat)
    (hy : y ≤ 9999) (hmo1 : 1 ≤ mo) (hmo : mo ≤ 12) (hd1 : 1 ≤ d) (hd : d ≤ daysIn mo y)
    (hh : h ≤ 23) (hmi : mi ≤ 59) (hs : s ≤ 59) :
    parseTimestampV2 (tsString y mo d h mi s) = some ⟨y, mo, d, h, mi, s, 0⟩ := by
  have hd99 : d ≤ 99 := le_trans hd (le_trans (daysIn_le mo y) (by omega))
  have hbuild := parseYMDHMS_tsChars y mo d h mi s zeroOffTail hy (by omega) hd99 (by omega)
    (by omega) (by omega)
  have hv : validDate y mo d h mi s = true := by
    simp only [validDate, Bool.and_eq_true, decide_eq_true_eq]
    omega
  have hl : lits zeroOffTail zeroOffTail = some [] := by decide
  simp [parseTimestampV2, tsString, hbuild, hl, hv]

theorem wrap64_eq_self (x : Int) (h1 : -9223372036854775808 ≤ x)
    (h2 : x ≤ 9223372036854775807) : wrap64 x = x := by
  unfold wrap64
  omega

theorem wrap64_zero : wrap64 0 = 0 := by
  unfold wrap64
  omega

theorem wrap64_emod (x : Int) :
    wrap64 x % 18446744073709551616 = x % 18446744073709551616 := by
  unfold wrap64
  omega

theorem wrap64_add_wrap64_left (a b : Int) : wrap64 (wrap64 a + b) = wrap64 (a + b) := by
  unfold wrap64
  omega

theorem wrap64_add_wrap64_right (a b : Int) : wrap64 (a + wrap64 b) = wrap64 (a + b) := by
  unfold wrap64
  omega

def durOf (e : SleepData) : Int := goSub e.EndDate e.StartDate

theorem sumVals_updDur_emod (st : List (String × Int)) (k : String) (d : Int) :
    sumVals (updDur st k d) % 18446744073709551616
      = (sumVals st + d) % 18446744073709551616 := by
  induction st with
  | nil =>
    have hw := wrap64_emod d
    simp [updDur, sumVals]
    omega
  | cons p rest ih =>
    obtain ⟨k', x⟩ := p
    by_cases h : k' = k
    · have hw := wrap64_emod (x + d)
      simp [updDur, h, sumVals] at ih ⊢
      omega
    · simp [updDur, h, sumVals] at ih ⊢
      omega

theorem sumVals_foldl_emod (entries : List SleepData) :
    ∀ st : List (String × Int),
      sumVals (entries.foldl (fun st e => updDur st e.Value (durOf e)) st)
          % 18446744073709551616
        = (sumVals st + (entries.map durOf).sum) % 18446744073709551616 := by
  induction entries with
  | nil => intro st; simp
  | cons e rest ih =>
    intro st
    simp only [List.foldl_cons, List.map_cons, List.sum_cons]
    have h1 := ih (updDur st e.Value (durOf e))
    have h2 := sumVals_updDur_emod st e.Value (durOf e)
    omega

theorem sumVals_statsOf_emod (entries : List SleepData) :
    sumVals (statsOf entries) % 18446744073709551616
      = (entries.map durOf).sum % 18446744073709551616 := by
  have h := sumVals_foldl_emod entries []
  simpa [statsOf, durOf, sumVals] using h

theorem lookupD_updDur (st : List (String × Int)) (v k : String) (d : Int) :
    lookupD (updDur st v d) k
      = if v = k then wrap64 (lookupD st k + d) else lookupD st k := by
  induction st with
  | nil =>
    by_cases h : v = k <;> simp [updDur, lookupD, h]
  | cons p rest ih =>
    obtain ⟨k', x⟩ := p
    by_cases h1 : k' = v
    · subst h1
      by_cases h2 : k' = k <;> simp [updDur, lookupD, h2]
    · by_cases h2 : k' = k
      · subst h2
        have h3 : v ≠ k' := fun hh => h1 hh.symm
        simp [updDur, lookupD, h1, h3]
      · simp [updDur, lookupD, h1, h2, ih]

theorem lookupD_foldl (entries : List SleepData) (k : String) :
    ∀ st : List (String × Int),
      lookupD (entries.foldl (fun st e => updDur st e.Value (durOf e)) st) k
        = if entries.filter (fun e => e.Value = k) = [] then lookupD st k
          else wrap64 (lookupD st k
            + ((entries.filter (fun e => e.Value = k)).map durOf).sum) := by
  induction entries with
  | nil => intro st; simp
  | cons e rest ih =>
    intro st
    simp only [List.foldl_cons]
    rw [ih]
    by_cases h : e.Value = k
    · by_cases hr : rest.filter (fun e => e.Value = k) = []
      · simp [List.filter_cons, h, hr, lookupD_updDur]
      · simp [List.filter_cons, h, hr, lookupD_updDur, wrap64_add_wrap64_left, add_assoc]
    · simp [List.filter_cons, h, lookupD_updDur]

theorem lookupD_statsOf (entries : List SleepData) (k : String) :
    lookupD (statsOf entries) k
      = wrap64 (((entries.filter (fun e => e.Value = k)).map durOf).sum) := by
  have h := lookupD_foldl entries k []
  by_cases hf : entries.filter (fun e => e.Value = k) = []
  · simp only [hf, if_pos] at h
    simpa [statsOf, durOf, lookupD, hf, wrap64_zero] using h
  · simp only [hf, if_neg, ite_false] at h
    simpa [statsOf, durOf, lookupD, hf] using h

theorem insertBucket_key (key : SleepData → String) (k : String) (e : SleepData)
    (hk : key e = k) :
    ∀ (g : List (String × List SleepData)),
      (∀ n b, (n, b) ∈ g → ∀ x ∈ b, key x = n) →
      ∀ n b, (n, b) ∈ insertBucket g k e → ∀ x ∈ b, key x = n := by
  intro g
  induction g with
  | nil =>
    intro _ n b hm x hx
    simp [insertBucket] at hm
    obtain ⟨hn, hb⟩ := hm
    subst hn
    subst hb
    simp at hx
    subst hx
    exact hk
  | cons p rest ih =>
    obtain ⟨k', b'⟩ := p
    intro hg n b hm x hx
    have hgrest : ∀ n b, (n, b) ∈ rest → ∀ x ∈ b, key x = n :=
      fun n b hmr => hg n b (List.mem_cons_of_mem _ hmr)
    rw [insertBucket] at hm
    by_cases h : k' = k
    · rw [if_pos h] at hm
      rcases List.mem_cons.mp hm with hEq | hmr
      · obtain ⟨hn, hb⟩ := Prod.mk.inj hEq
        subst hn
        subst hb
        rcases List.mem_append.mp hx with hxb | hxe
        · exact hg n b' (by simp) x hxb
        · simp at hxe
          subst hxe
          rw [hk]
          exact h.symm
      · exact hg n b (List.mem_cons_of_mem _ hmr) x hx
    · rw [if_neg h] at hm
      rcases List.mem_cons.mp hm with hEq | hmr
      · obtain ⟨hn, hb⟩ := Prod.mk.inj hEq
        subst hn
        subst hb
        exact hg n b (by simp) x hx
      · exact ih hgrest n b hmr x hx

theorem groupByKey_key (key : SleepData → String) (data : List SleepData) :
    ∀ n b, (n, b) ∈ groupByKey key data → ∀ e ∈ b, key e = n := by
  have main : ∀ (l : List SleepData) (g : List (String × List SleepData)),
      (∀ n b, (n, b) ∈ g → ∀ x ∈ b, key x = n) →
      ∀ n b, (n, b) ∈ l.foldl (fun g e => insertBucket g (key e) e) g → ∀ x ∈ b, key x = n := by
    intro l
    induction l with
    | nil => intro g hg; exact hg
    | cons e rest ih =>
      intro g hg
      exact ih _ (insertBucket_key key (key e) e rfl g hg)
  intro n b hm
  exact main data [] (by simp) n b hm

theorem mapGetD_updIdx_ne (m : List (String × Nat)) (k name : String) (i : Nat)
    (h : name ≠ k) : mapGetD (updIdx m k i) name = mapGetD m name := by
  have hkn : ¬ (k = name) := fun hh => h hh.symm
  induction m with
  | nil => simp [updIdx, mapGetD, hkn]
  | cons p rest ih =>
    obtain ⟨k', x⟩ := p
    rw [updIdx]
    by_cases h1 : k' = k
    · rw [if_pos h1, mapGetD, mapGetD, if_neg hkn, if_neg (h1 ▸ hkn)]
    · rw [if_neg h1, mapGetD, mapGetD]
      by_cases h2 : k' = name
      · rw [if_pos h2, if_pos h2]
      · rw [if_neg h2, if_neg h2, ih]

theorem mapGetD_parseHeaderAux (header : List String) (name : String) :
    ∀ (i : Nat) (m : List (String × Nat)), name ∉ header →
      mapGetD (parseHeaderAux i header m) name = mapGetD m name := by
  induction header with
  | nil => intro i m _; simp [parseHeaderAux]
  | cons h rest ih =>
    intro i m hni
    simp [not_or] at hni
    rw [parseHeaderAux, ih (i + 1) _ hni.2, mapGetD_updIdx_ne _ _ _ _ hni.1]

theorem mapGetD_parseHeader_missing (header : List String) (name : String)
    (h : name ∉ header) : mapGetD (parseHeader header) name = 0 := by
  rw [parseHeader, mapGetD_parseHeaderAux header name 0 [] h]
  rfl

/-! ## The claims -/

/-- The two-entry, one-night input of the C1 witness. -/
def c1Data : List SleepData :=
  [⟨⟨2024, 1, 1, 22, 0, 0, 0⟩, ⟨2024, 1, 1, 23, 0, 0, 0⟩, "inBed"⟩,
   ⟨⟨2024, 1, 1, 23, 0, 0, 0⟩, ⟨2024, 1, 1, 23, 30, 0, 0⟩, "asleepCore"⟩]

/-- The C1 counterexample input: two parseable Watch intervals sharing a
start date, each spanning from 2024 to the end of 9999, so each Sub saturates
to maxDuration and Go's int64 accumulation wraps their night total to -2 ns. -/
def c1OverflowData : List SleepData :=
  [⟨⟨2024, 1, 1, 0, 0, 0, 0⟩, ⟨9999, 12, 31, 23, 59, 59, 0⟩, "inBed"⟩,
   ⟨⟨2024, 1, 1, 0, 0, 0, 0⟩, ⟨9999, 12, 31, 23, 59, 59, 0⟩, "inBed"⟩]

/-- Counterexample to claim C1: at a night bucket of two saturated-duration
intervals (both timestamps parseable by the current layout), the program's
stored night total wraps to -2 ns while the exact sum of end - start over the
bucket is 2 * maxDuration, so exact conservation fails. -/
theorem conservation_overflow_counterexample :
    parseTimestampV2 ("9999-12-31 23:59:59 +0000") = some ⟨9999, 12, 31, 23, 59, 59, 0⟩ ∧
    groupByDate c1OverflowData = [(("2024-01-01"), c1OverflowData)] ∧
    sumVals (statsOf c1OverflowData) = -2 ∧
    (c1OverflowData.map (fun e => goSub e.EndDate e.StartDate)).sum = 18446744073709551614 ∧
    ¬ (sumVals (statsOf c1OverflowData)
        = (c1OverflowData.map (fun e => goSub e.EndDate e.StartDate)).sum) := by
  refine ⟨by decide, by decide, by decide, by decide, by decide⟩

/-- Claim C1 as amended: for every interval list and every night bucket
produced by groupByDate, the total that calculateNightlyStatistics reports
for that night, summed across all stage labels, is congruent modulo 2^64 -
Go's int64 Duration wrap - to the sum of end - start over exactly that
bucket's intervals; exact equality fails once a total overflows int64
(counterexample). -/
theorem nightly_total_conservation_mod (data : List SleepData) (night : String)
    (bucket : List SleepData) (h : (night, bucket) ∈ groupByDate data) :
    (night, statsOf bucket) ∈ calculateNightlyStatistics (groupByDate data) ∧
    sumVals (statsOf bucket) % 18446744073709551616
      = (bucket.map (fun e => goSub e.EndDate e.StartDate)).sum % 18446744073709551616 := by
  constructor
  · exact List.mem_map_of_mem (fun p => (p.1, statsOf p.2)) h
  · have hsum := sumVals_statsOf_emod bucket
    simpa [durOf] using hsum

/-- Witness for the amended C1 at a concrete two-interval night. -/
theorem nightly_total_conservation_mod_witness :
    (("2024-01-01"), c1Data) ∈ groupByDate c1Data ∧
    (((("2024-01-01"), statsOf c1Data) ∈ calculateNightlyStatistics (groupByDate c1Data)) ∧
      sumVals (statsOf c1Data) % 18446744073709551616
        = (c1Data.map (fun e => goSub e.EndDate e.StartDate)).sum % 18446744073709551616) :=
  ⟨by decide, nightly_total_conservation_mod c1Data ("2024-01-01") c1Data (by decide)⟩

/-- The C2 input: two nights, inserted with the later night first, so that
the (unspecified) Go map iteration order realized as insertion order differs
from calendar order.  Night 2024-01-03 has 7200 s of inBed, night 2024-01-01
has 1800 s. -/
def c2Data : List SleepData :=
  [⟨⟨2024, 1, 3, 22, 0, 0, 0⟩, ⟨2024, 1, 4, 0, 0, 0, 0⟩, "inBed"⟩,
   ⟨⟨2024, 1, 1, 22, 0, 0, 0⟩, ⟨2024, 1, 1, 22, 30, 0, 0⟩, "inBed"⟩]

/-- Claim C2 (evaluated at the failing input): main's textual summary emits
the nights in map iteration order - here 2024-01-03 before 2024-01-01, not
ascending - and createPlot pairs the sorted date 2024-01-01 with the series
value 7200000000000 ns, which is night 2024-01-03's inBed total, not the
1800000000000 ns belonging to 2024-01-01 (the dates are sorted, the y-series
is not). -/
theorem reporter_order_eval :
    (summaryLines (calculateNightlyStatistics (groupByDate c2Data))).map (fun p => p.1)
        = [("2024-01-03"), ("2024-01-01")] ∧
    plotPoints ("inBed") (calculateNightlyStatistics (groupByDate c2Data))
        = [(("2024-01-01"), 7200000000000), (("2024-01-03"), 1800000000000)] ∧
    lookupD (nightStatsFor (calculateNightlyStatistics (groupByDate c2Data)) ("2024-01-01"))
        ("inBed") = 1800000000000 := by
  refine ⟨by decide, by decide, by decide⟩

/-- A file whose second retained row carries the offset -0700, which the
claim says parseCSV accepts. -/
def c3BadOffsetFile : String :=
  "productType,startDate,endDate,value\nWatch,2024-01-01 20:00:00 +0000,2024-01-01 21:00:00 +0000,inBed\nWatch,2024-01-01 23:00:00 -0700,2024-01-02 07:00:00 -0700,inBed\n"

/-- Counterexample to claim C3: the current layout treats " +0000" as literal
text, so the well-formed timestamp 2024-01-01 23:00:00 -0700 does not parse,
and a file containing it in a retained row makes the whole run fail. -/
theorem timestamp_offset_counterexample :
    parseTimestampV2 ("2024-01-01 23:00:00 -0700") = none ∧
    parseCSV c3BadOffsetFile none none
      = Except.error (CSVError.badTimestamp ("2024-01-01 23:00:00 -0700")) := by
  refine ⟨by decide, by rfl⟩

/-- A file whose second retained row has an out-of-range month, to exhibit
the fatal whole-run failure. -/
def c3BadMonthFile : String :=
  "productType,startDate,endDate,value\nWatch,2024-01-01 20:00:00 +0000,2024-01-01 21:00:00 +0000,inBed\nWatch,2024-13-01 00:00:00 +0000,2024-13-01 01:00:00 +0000,inBed\n"

/-- Claim C3 as amended: every retained timestamp of the form
YYYY-MM-DD HH:MM:SS followed by the LITERAL offset +0000 (and only that
offset) parses under the current layout; the earlier revision's layout
accepted any signed numeric offset; and a parse failure on any retained row
is fatal for the whole run with no partial result. -/
theorem timestamp_layout_amended :
    (∀ y mo d h mi s : Nat, y ≤ 9999 → 1 ≤ mo → mo ≤ 12 → 1 ≤ d → d ≤ daysIn mo y →
      h ≤ 23 → mi ≤ 59 → s ≤ 59 →
      parseTimestampV2 (tsString y mo d h mi s) = some ⟨y, mo, d, h, mi, s, 0⟩) ∧
    parseTimestampV1 ("2024-01-01 23:00:00 -0700") = some ⟨2024, 1, 1, 23, 0, 0, -25200⟩ ∧
    parseCSV c3BadMonthFile none none
      = Except.error (CSVError.badTimestamp ("2024-13-01 00:00:00 +0000")) := by
  refine ⟨fun y mo d h mi s hy h1 h2 h3 h4 h5 h6 h7 =>
    parseTimestampV2_tsString y mo d h mi s hy h1 h2 h3 h4 h5 h6 h7, by decide, by rfl⟩

/-- Witness for the amended C3 on the leap day 2024-02-29. -/
theorem timestamp_layout_amended_witness :
    (2024 ≤ 9999 ∧ 29 ≤ daysIn 2 2024) ∧
    parseTimestampV2 (tsString 2024 2 29 23 59 59) = some ⟨2024, 2, 29, 23, 59, 59, 0⟩ :=
  ⟨⟨by decide, by decide⟩,
    timestamp_layout_amended.1 2024 2 29 23 59 59 (by decide) (by decide) (by decide)
      (by decide) (by decide) (by decide) (by decide) (by decide)⟩

/-- The C4 file: one row starting exactly at the start filter, one starting
one second earlier. -/
def c4File : String :=
  "productType,startDate,endDate,value\nWatch,2024-01-02 00:00:00 +0000,2024-01-02 01:00:00 +0000,inBed\nWatch,2024-01-01 23:59:59 +0000,2024-01-02 01:00:00 +0000,inBed\n"

/-- Claim C4: with both filters present a row is retained iff
start ≥ startFilter and end ≤ endFilter, both inclusive; absent filters
impose no constraint; and end to end, the row starting exactly at the start
filter is retained while the row starting one second earlier is excluded. -/
theorem date_filter_inclusive :
    (∀ f1 f2 s e : GoTime,
      inDateRange (some f1) (some f2) s e = true
        ↔ (toUnix f1 ≤ toUnix s ∧ toUnix e ≤ toUnix f2)) ∧
    (∀ s e : GoTime, inDateRange none none s e = true) ∧
    parseCSV c4File (parseDate10 ("2024-01-02")) (parseDate10 ("2024-01-05"))
      = Except.ok [⟨⟨2024, 1, 2, 0, 0, 0, 0⟩, ⟨2024, 1, 2, 1, 0, 0, 0⟩, "inBed"⟩] := by
  refine ⟨?_, fun s e => rfl, by rfl⟩
  intro f1 f2 s e
  simp only [inDateRange, goAfter, goBefore, goEqual, Bool.and_eq_true, Bool.or_eq_true,
    decide_eq_true_eq]
  omega

/-- The C5 interval: it starts at 01:00, before noon. -/
def c5Entry : SleepData := ⟨⟨2024, 1, 2, 1, 0, 0, 0⟩, ⟨2024, 1, 2, 7, 0, 0, 0⟩, "inBed"⟩

/-- Counterexample to claim C5 at a before-noon interval: the program's
grouping function (the current groupByDate, which takes no policy selector)
yields the start's own date 2024-01-02, while the earlier revision's shift
rule - present in the current source only as a comment - would yield
2024-01-01.  The program exposes exactly one behavior, not a configurable
pair. -/
theorem grouping_policy_counterexample :
    groupByDate [c5Entry] = [(("2024-01-02"), [c5Entry])] ∧
    groupByDateV1 [c5Entry] = [(("2024-01-01"), [c5Entry])] ∧
    c5Entry.StartDate.hour < 12 := by
  refine ⟨by decide, by decide, by decide⟩

/-- Claim C5 as amended: the two boundary rules exist only as the two
revisions' hard-coded groupByDate bodies - the current one keys every
interval by its start date as-is, the earlier one by the shift rule - with
no runtime selector. -/
theorem grouping_policy_amended :
    (∀ data night bucket, (night, bucket) ∈ groupByDate data →
      ∀ e ∈ bucket, night = format10 e.StartDate) ∧
    (∀ data night bucket, (night, bucket) ∈ groupByDateV1 data →
      ∀ e ∈ bucket, night = format10 (v1DateKey e.StartDate)) := by
  constructor
  · intro data night bucket hm e he
    exact (groupByKey_key nightKey data night bucket hm e he).symm
  · intro data night bucket hm e he
    exact (groupByKey_key nightKeyV1 data night bucket hm e he).symm

/-- Witness for the amended C5. -/
theorem grouping_policy_amended_witness :
    ((("2024-01-02"), [c5Entry]) ∈ groupByDate [c5Entry]) ∧
    (("2024-01-02") : String) = format10 c5Entry.StartDate :=
  ⟨by decide,
    grouping_policy_amended.1 [c5Entry] ("2024-01-02") [c5Entry] (by decide) c5Entry (by decide)⟩

/-- The C6 input: one night containing two inBed sessions of 1800 s each. -/
def c6Data : List SleepData :=
  [⟨⟨2024, 1, 1, 22, 0, 0, 0⟩, ⟨2024, 1, 1, 22, 30, 0, 0⟩, "inBed"⟩,
   ⟨⟨2024, 1, 1, 23, 0, 0, 0⟩, ⟨2024, 1, 1, 23, 30, 0, 0⟩, "inBed"⟩]

/-- Counterexample to claim C6 at a night with two inBed sessions: the
aggregator's entire output for the night is the single duration entry
inBed = 3600000000000 ns, the summary line reports exactly the five stage
durations, and the session count 2 appears nowhere among the reported
values. -/
theorem session_count_counterexample :
    calculateNightlyStatistics (groupByDate c6Data)
      = [(("2024-01-01"), [(("inBed"), 3600000000000)])] ∧
    summaryLines (calculateNightlyStatistics (groupByDate c6Data))
      = [(("2024-01-01"), [3600000000000, 0, 0, 0, 0])] ∧
    sessionCountSpec ("inBed") c6Data = 2 ∧
    ¬ ((2 : Int) ∈ [(3600000000000 : Int), 0, 0, 0, 0]) := by
  refine ⟨by decide, by decide, by decide, by decide⟩

/-- Claim C6 as amended: the aggregator computes per-stage duration
accumulations and nothing else - each per-night per-stage value it reports is
the int64-wrapped sum of end - start over that stage's intervals, and equals
that sum exactly whenever it fits in int64; no occurrence count is tallied or
reported. -/
theorem aggregator_wrapped_sums_amended (bucket : List SleepData) (stage : String) :
    lookupD (statsOf bucket) stage
      = wrap64 (((bucket.filter (fun e => e.Value = stage)).map
          (fun e => goSub e.EndDate e.StartDate)).sum) ∧
    (-9223372036854775808
        ≤ ((bucket.filter (fun e => e.Value = stage)).map
            (fun e => goSub e.EndDate e.StartDate)).sum →
      ((bucket.filter (fun e => e.Value = stage)).map
          (fun e => goSub e.EndDate e.StartDate)).sum ≤ 9223372036854775807 →
      lookupD (statsOf bucket) stage
        = ((bucket.filter (fun e => e.Value = stage)).map
            (fun e => goSub e.EndDate e.StartDate)).sum) := by
  have hchar : lookupD (statsOf bucket) stage
      = wrap64 (((bucket.filter (fun e => e.Value = stage)).map
          (fun e => goSub e.EndDate e.StartDate)).sum) := by
    have h := lookupD_statsOf bucket stage
    simpa [durOf] using h
  refine ⟨hchar, fun h1 h2 => ?_⟩
  rw [hchar]
  exact wrap64_eq_self _ h1 h2

/-- Witness for the amended C6 at the two-session night, where the stage sum
fits in int64 and the reported value is exactly the sum. -/
theorem aggregator_wrapped_sums_amended_witness :
    (-9223372036854775808
        ≤ ((c6Data.filter (fun e => e.Value = ("inBed"))).map
            (fun e => goSub e.EndDate e.StartDate)).sum ∧
      ((c6Data.filter (fun e => e.Value = ("inBed"))).map
          (fun e => goSub e.EndDate e.StartDate)).sum ≤ 9223372036854775807) ∧
    lookupD (statsOf c6Data) ("inBed")
      = ((c6Data.filter (fun e => e.Value = ("inBed"))).map
          (fun e => goSub e.EndDate e.StartDate)).sum :=
  ⟨⟨by decide, by decide⟩,
    (aggregator_wrapped_sums_amended c6Data ("inBed")).2 (by decide) (by decide)⟩

/-- A concrete inBed interval for the C7 witness. -/
def c7A : SleepData := ⟨⟨2024, 1, 1, 22, 0, 0, 0⟩, ⟨2024, 1, 1, 23, 0, 0, 0⟩, "inBed"⟩

/-- A concrete awake interval for the C7 witness. -/
def c7B : SleepData := ⟨⟨2024, 1, 1, 23, 0, 0, 0⟩, ⟨2024, 1, 1, 23, 30, 0, 0⟩, "awake"⟩

/-- Claim C7: calculateNightlyStatistics is order-independent on a night's
bucket - permuting the bucket leaves every per-stage total unchanged - and
duplicates are not deduplicated: a doubled interval contributes its full
duration twice to the (int64-wrapped, as Go's += is) accumulation. -/
theorem stats_order_independent (b b' : List SleepData) (h : b.Perm b') :
    (∀ k, lookupD (statsOf b) k = lookupD (statsOf b') k) ∧
    (∀ (e : SleepData) (rest : List SleepData),
      lookupD (statsOf (e :: e :: rest)) e.Value
        = wrap64 (goSub e.EndDate e.StartDate + goSub e.EndDate e.StartDate
            + lookupD (statsOf rest) e.Value)) := by
  constructor
  · intro k
    rw [lookupD_statsOf, lookupD_statsOf]
    exact congrArg wrap64 (List.Perm.sum_eq (List.Perm.map _ (List.Perm.filter _ h)))
  · intro e rest
    rw [lookupD_statsOf, lookupD_statsOf, wrap64_add_wrap64_right]
    congr 1
    simp [List.filter_cons, durOf]
    ring

/-- Witness for C7 on a two-interval swap. -/
theorem stats_order_independent_witness :
    ([c7A, c7B].Perm [c7B, c7A]) ∧
    lookupD (statsOf [c7A, c7B]) ("inBed") = lookupD (statsOf [c7B, c7A]) ("inBed") :=
  ⟨List.Perm.swap c7B c7A [],
    (stats_order_independent [c7A, c7B] [c7B, c7A] (List.Perm.swap c7B c7A [])).1 ("inBed")⟩

/-- The C8 file: a retained Watch row whose end precedes its start. -/
def c8File : String :=
  "productType,startDate,endDate,value\nWatch,2024-01-02 03:00:00 +0000,2024-01-02 01:00:00 +0000,inBed\n"

/-- Counterexample to claim C8: the parser performs no end ≥ start check - it
emits the reversed row unchanged, and the aggregator's duration for it,
end - start, is -7200000000000 ns, which is negative. -/
theorem negative_duration_counterexample :
    parseCSV c8File none none
      = Except.ok [⟨⟨2024, 1, 2, 3, 0, 0, 0⟩, ⟨2024, 1, 2, 1, 0, 0, 0⟩, "inBed"⟩] ∧
    goSub ⟨2024, 1, 2, 1, 0, 0, 0⟩ ⟨2024, 1, 2, 3, 0, 0, 0⟩ = -7200000000000 := by
  refine ⟨by rfl, by decide⟩

/-- Claim C8 as amended: no validation relates end to start; the per-interval
duration end - start computed by the aggregator is non-negative exactly when
the end instant is not before the start instant (and negative otherwise, as
the counterexample's retained row shows). -/
theorem duration_sign_amended (s e : GoTime) :
    0 ≤ goSub e s ↔ toUnix s ≤ toUnix e := by
  unfold goSub maxDuration minDuration
  split_ifs <;> omega

/-- The C9 file: the header lacks a startDate column; column 0 of the data
row holds a timestamp under an unrelated name. -/
def c9File : String :=
  "ts,productType,endDate,value\n2024-01-01 22:00:00 +0000,Watch,2024-01-01 23:00:00 +0000,inBed\n"

/-- Claim C9: a required column name missing from the header is not an
error - the header-map lookup yields the zero value 0, so the field is
silently read from column 0 of every data row; end to end, a file without a
startDate column parses successfully with StartDate taken from column 0. -/
theorem missing_header_column_default :
    (∀ (header : List String) (name : String), name ∉ header →
      mapGetD (parseHeader header) name = 0) ∧
    parseCSV c9File none none
      = Except.ok [⟨⟨2024, 1, 1, 22, 0, 0, 0⟩, ⟨2024, 1, 1, 23, 0, 0, 0⟩, "inBed"⟩] := by
  refine ⟨fun header name h => mapGetD_parseHeader_missing header name h, by rfl⟩

/-- Witness for C9 at the concrete header of c9File. -/
theorem missing_header_column_default_witness :
    (("startDate") ∉ [("ts"), ("productType"), ("endDate"), ("value")]) ∧
    mapGetD (parseHeader [("ts"), ("productType"), ("endDate"), ("value")]) ("startDate") = 0 :=
  ⟨by decide, missing_header_column_default.1 _ _ (by decide)⟩

/-- Claim C10: input shorter than four bytes - in particular an empty file -
fails at the Peek(4) with an error, and an input of at least four bytes not
starting with sep= goes straight to header parsing (parseRows on the whole
contents). -/
theorem peek_short_and_no_sep :
    (∀ (content : String) (sf ef : Option GoTime), content.data.length < 4 →
      parseCSV content sf ef = Except.error CSVError.peekShort) ∧
    parseCSV ("") none none = Except.error CSVError.peekShort ∧
    (∀ (content : String) (sf ef : Option GoTime),
      4 ≤ content.data.length → content.data.take 4 ≠ ['s', 'e', 'p', '='] →
      parseCSV content sf ef = parseRows content.data sf ef) ∧
    parseCSV ("a,b\n") none none = Except.ok [] := by
  refine ⟨?_, by rfl, ?_, by rfl⟩
  · intro content sf ef h
    rw [parseCSV, if_pos h]
  · intro content sf ef h4 hsep
    rw [parseCSV, if_neg (by omega), if_neg hsep]

/-- Witness for C10 on a two-byte file and a four-byte sep-free file. -/
theorem peek_short_and_no_sep_witness :
    (("ab").data.length < 4 ∧ parseCSV ("ab") none none = Except.error CSVError.peekShort) ∧
    (4 ≤ ("a,b\n").data.length ∧ ("a,b\n").data.take 4 ≠ ['s', 'e', 'p', '='] ∧
      parseCSV ("a,b\n") none none = parseRows ("a,b\n").data none none) :=
  ⟨⟨by decide, peek_short_and_no_sep.1 ("ab") none none (by decide)⟩,
   ⟨by decide, by decide,
     peek_short_and_no_sep.2.2.1 ("a,b\n") none none (by decide) (by decide)⟩⟩

end SleepStats
